import Mathlib

/-!
# designer: render-on-demand loop (src/main.c)

A shallow embedding of `src/main.c`.  The C globals become the fields of `State`; every
function of the file becomes a state transformer.  What the three external libraries do is
kept to the part the program can observe:

* cairo: a context carries its target surface, its translation (the program only ever calls
  `cairo_translate`, so the transformation matrix is the identity plus a translation), its
  line width, its source colour and its current path, stored in device coordinates, as cairo
  does.  An image surface carries its dimensions and the list of paint operations applied to
  it, oldest first.  Coordinates are rationals: `fb_width/2.0` is exact for every `int`.
* OpenGL / GLFW: object creation and deletion is tracked in a ledger of live handles; the
  calls whose arguments vary, and those that mark the progress of the loop, are appended to a
  trace.  Calls that only bind objects or set constant parameters (`glBindTexture`,
  `glUseProgram`, `glTexParameteri`, ...) have no effect on the model and are left out, as
  is `p_gl_error`, which is never called.
* The status cairo, GLFW and the GL driver report for a fallible call is an input of the
  model (`Env` for the start-up, the two flags of `Event.resize` for a resize).
* Window events reach the program only inside `glfwWaitEvents`, through the callbacks that
  `main` has registered.
* cairo dereferences the context it is given, so a drawing call on a `NULL` context has no
  defined behaviour; the model stops the process there (`Proc.crashed`).
-/

namespace Designer

/-! ## Data model -/

/-- An RGBA colour as passed to `cairo_set_source_rgba`. -/
structure Color where
  r : ℚ
  g : ℚ
  b : ℚ
  a : ℚ
deriving DecidableEq

/-- One element of a cairo path, in device coordinates. Angles are in units of pi. -/
inductive Shape where
  | rect (x y w h : ℚ)
  | arc (cx cy radius angle1 angle2 : ℚ)
deriving DecidableEq

/-- One paint operation applied to a surface. -/
inductive Paint where
  | fill (path : List Shape) (source : Color)
  | stroke (path : List Shape) (lineWidth : ℚ) (source : Color)
deriving DecidableEq

/-- A live cairo image surface: its dimensions and what has been painted on it. -/
structure Surface where
  id : Nat
  width : Int
  height : Int
  painted : List Paint
deriving DecidableEq

/-- The value of a `cairo_surface_t *` variable: `NULL`, the error object cairo hands out
when a surface cannot be created, or a live surface. -/
inductive SurfPtr where
  | null
  | error
  | live (sf : Surface)
deriving DecidableEq

/-- The state of a `cairo_t`. -/
structure Cairo where
  id : Nat
  target : Nat
  tx : ℚ
  ty : ℚ
  lineWidth : ℚ
  source : Color
  path : List Shape
deriving DecidableEq

/-- A handle the program holds and has not released. -/
inductive Res where
  | window
  | shader (name : Nat)
  | program (name : Nat)
  | buffer (name : Nat)
  | vertexArray (name : Nat)
  | texture (name : Nat)
  | surface (id : Nat)
  | context (id : Nat)
deriving DecidableEq

/-- The lines the program prints. -/
inductive Msg where
  | glfwInitFailed
  | windowFailed
  | rendererInfo
  | versionInfo
  | vertFailed
  | fragFailed
  | linkFailed
  | linked
  | cairoFailed
  | surfaceFailed
  | contextFailed
  | rendered
  | keyEvent (scancode : Int)
  | glfwError
deriving DecidableEq

/-- The library calls recorded in the trace.  `glTexImage2D` records the declared width and
height and the dimensions of the image surface whose pixel pointer is passed (`none` for a
null pointer). -/
inductive Op where
  | stdout (m : Msg)
  | stderr (m : Msg)
  | glViewport (width height : Int)
  | glClear
  | glTexImage2D (width height : Int) (data : Option (Int × Int))
  | glDrawElements (count : Nat)
  | glfwSwapBuffers
  | glfwWaitEvents
  | glfwTerminate
deriving DecidableEq

/-- What has become of the process. -/
inductive Proc where
  | alive
  | exited (code : Nat)
  | crashed
  | blocked
deriving DecidableEq

/-- The status the libraries report for the fallible start-up calls of `main`. -/
structure Env where
  glfwInitOk : Bool
  windowOk : Bool
  vertOk : Bool
  fragOk : Bool
  linkOk : Bool
  surfOk : Bool
  ctxOk : Bool
deriving DecidableEq

/-- A window event delivered during `glfwWaitEvents`.  A framebuffer-size event carries the
new size and the status cairo reports for the surface and for the context created while the
event is handled. -/
inductive Event where
  | resize (width height : Int) (surfOk ctxOk : Bool)
  | key (key scancode : Int)
  | close
  | error (code : Int)
deriving DecidableEq

/-- The globals of `main.c` (lines 15-23, 56-57) followed by the part of the environment the
program interacts with. -/
structure State where
  should_render : Bool
  running : Bool
  fb_width : Int
  fb_height : Int
  scr_vbo : Nat
  scr_vao : Nat
  scr_ebo : Nat
  scr_tex : Nat
  scr_vert : Nat
  scr_frag : Nat
  scr_prog : Nat
  scr_surf : SurfPtr
  ctx : Option Cairo
  errorCallbackSet : Bool
  framebufferSizeCallbackSet : Bool
  keyCallbackSet : Bool
  windowShouldClose : Bool
  live : List Res
  next : Nat
  trace : List Op
  proc : Proc

def WIDTH : Int := 640

def HEIGHT : Int := 480

/-- The value of the GLFW header constant. -/
def GLFW_KEY_ESCAPE : Int := 256

/-- The state when `main` is entered. -/
def State.initial : State where
  should_render := true
  running := true
  fb_width := WIDTH
  fb_height := HEIGHT
  scr_vbo := 0
  scr_vao := 0
  scr_ebo := 0
  scr_tex := 0
  scr_vert := 0
  scr_frag := 0
  scr_prog := 0
  scr_surf := SurfPtr.null
  ctx := none
  errorCallbackSet := false
  framebufferSizeCallbackSet := false
  keyCallbackSet := false
  windowShouldClose := false
  live := []
  next := 1
  trace := []
  proc := Proc.alive

/-! ## cairo -/

def cairo_set_source_rgba (c : Cairo) (r g b a : ℚ) : Cairo :=
  { c with source := ⟨r, g, b, a⟩ }

def cairo_set_source_rgb (c : Cairo) (r g b : ℚ) : Cairo :=
  { c with source := ⟨r, g, b, 1⟩ }

def cairo_set_line_width (c : Cairo) (w : ℚ) : Cairo :=
  { c with lineWidth := w }

def cairo_translate (c : Cairo) (dx dy : ℚ) : Cairo :=
  { c with tx := c.tx + dx, ty := c.ty + dy }

def cairo_rectangle (c : Cairo) (x y w h : ℚ) : Cairo :=
  { c with path := c.path ++ [Shape.rect (c.tx + x) (c.ty + y) w h] }

def cairo_arc (c : Cairo) (xc yc radius angle1 angle2 : ℚ) : Cairo :=
  { c with path := c.path ++ [Shape.arc (c.tx + xc) (c.ty + yc) radius angle1 angle2] }

/-- Paints the current path onto the target and clears the path. -/
def cairo_fill (c : Cairo) : Cairo × List Paint :=
  ({ c with path := [] }, [Paint.fill c.path c.source])

/-- Paints the outline of the current path onto the target and keeps the path. -/
def cairo_stroke_preserve (c : Cairo) : Cairo × List Paint :=
  (c, [Paint.stroke c.path c.lineWidth c.source])

/-- The paint operations a context emits land on the surface it targets. -/
def SurfPtr.paint (target : Nat) (ps : List Paint) : SurfPtr → SurfPtr
  | SurfPtr.live sf =>
    if sf.id = target then SurfPtr.live { sf with painted := sf.painted ++ ps }
    else SurfPtr.live sf
  | p => p

/-- Dimensions of the pixel buffer `cairo_image_surface_get_data` returns; `none` when the
surface is an error object and the pointer returned is null. -/
def SurfPtr.dataDims : SurfPtr → Option (Int × Int)
  | SurfPtr.live sf => some (sf.width, sf.height)
  | _ => none

/-- Both `cairo_surface_destroy` and `cairo_destroy` release the handle they are given and
ignore `NULL` and error objects. -/
def cairo_surface_destroy (p : SurfPtr) (s : State) : State :=
  { s with live := match p with
                   | SurfPtr.live sf => s.live.erase (Res.surface sf.id)
                   | _ => s.live }

def cairo_destroy (c : Option Cairo) (s : State) : State :=
  { s with live := match c with
                   | some cr => s.live.erase (Res.context cr.id)
                   | none => s.live }

/-- A freshly created context: identity transformation, line width 2, opaque black. -/
def Cairo.fresh (id target : Nat) : Cairo :=
  { id := id, target := target, tx := 0, ty := 0, lineWidth := 2,
    source := ⟨0, 0, 0, 1⟩, path := [] }

def State.log (s : State) (op : Op) : State :=
  { s with trace := s.trace ++ [op] }

/-- Lines 256-272.  Returns the state, the value stored in `*surf` and the return value. -/
def create_cairo (width height : Int) (surfOk ctxOk : Bool) (s : State) :
    State × SurfPtr × Option Cairo :=
  if surfOk = false then
    (s.log (Op.stderr Msg.surfaceFailed), SurfPtr.error, none)
  else
    let sf : Surface := { id := s.next, width := width, height := height, painted := [] }
    let s1 : State := { s with live := s.live ++ [Res.surface sf.id], next := s.next + 1 }
    if ctxOk = false then
      ((cairo_surface_destroy (SurfPtr.live sf) s1).log (Op.stderr Msg.contextFailed),
        SurfPtr.null, none)
    else
      let c : Cairo := Cairo.fresh s1.next sf.id
      ({ s1 with live := s1.live ++ [Res.context c.id], next := s1.next + 1 },
        SurfPtr.live sf, some c)

/-- Pixel pointer of an image surface.  The outer `none` is the dereference of a `NULL`
surface pointer; the inner value is `SurfPtr.dataDims`. -/
def cairo_image_surface_get_data : SurfPtr → Option (Option (Int × Int))
  | SurfPtr.null => none
  | p => some p.dataDims

/-! ## OpenGL and GLFW -/

/-- A `glCreate*` or `glGen*` call: a fresh name, recorded as live. -/
def State.gen (s : State) (mk : Nat → Res) : State × Nat :=
  ({ s with live := s.live ++ [mk s.next], next := s.next + 1 }, s.next)

/-- A `glDelete*` call. -/
def State.release (s : State) (r : Res) : State :=
  { s with live := s.live.erase r }

/-- Destroys the window. -/
def glfwTerminate (s : State) : State :=
  (s.release Res.window).log Op.glfwTerminate

def glViewport (width height : Int) (s : State) : State :=
  s.log (Op.glViewport width height)

def State.exit (s : State) (code : Nat) : State :=
  { s with proc := Proc.exited code }

/-! ## The callbacks -/

/-- Lines 246-248. -/
def error_callback (_err : Int) (s : State) : State :=
  s.log (Op.stderr Msg.glfwError)

/-- Lines 250-254. -/
def key_callback (key scancode : Int) (s : State) : State :=
  let s := if key = GLFW_KEY_ESCAPE then { s with running := false } else s
  s.log (Op.stdout (Msg.keyEvent scancode))

/-- Lines 274-285. The two flags are the status of the surface and of the context that
`create_cairo` obtains from cairo. -/
def framebuffer_size_callback (width height : Int) (surfOk ctxOk : Bool) (s : State) : State :=
  let s := { s with fb_width := width, fb_height := height }
  let s := glViewport width height s
  let s := cairo_surface_destroy s.scr_surf s
  let s := cairo_destroy s.ctx s
  match create_cairo s.fb_width s.fb_height surfOk ctxOk s with
  | (s, surf, c) => { s with scr_surf := surf, ctx := c, should_render := true }

/-- GLFW hands an event to the callback registered for it, if any; a close request sets the
close flag of the window. -/
def dispatch (s : State) : Event → State
  | Event.resize w h surfOk ctxOk =>
    if s.framebufferSizeCallbackSet then framebuffer_size_callback w h surfOk ctxOk s else s
  | Event.key k sc => if s.keyCallbackSet then key_callback k sc s else s
  | Event.close => { s with windowShouldClose := true }
  | Event.error code => if s.errorCallbackSet then error_callback code s else s

/-- One call of `glfwWaitEvents` during which the events of `batch` are delivered. -/
def glfwWaitEvents (batch : List Event) (s : State) : State :=
  batch.foldl dispatch (s.log Op.glfwWaitEvents)

/-! ## main -/

/-- Lines 206-218: the cairo calls of one redraw, with the paint operations they emit. -/
def drawScene (fb_width fb_height : Int) (c : Cairo) : Cairo × List Paint :=
  let c := cairo_set_source_rgba c 1 1 1 0
  let c := cairo_rectangle c 0 0 fb_width fb_height
  let (c, p1) := cairo_fill c
  let c := cairo_set_line_width c 9
  let c := cairo_translate c (fb_width / 2) (fb_height / 2)
  let c := cairo_arc c 0 0 50 0 2
  let c := cairo_set_source_rgb c 1 1 1
  let (c, p2) := cairo_stroke_preserve c
  let c := cairo_set_source_rgb c (2 / 10) 1 (7 / 10)
  let (c, p3) := cairo_fill c
  (c, p1 ++ p2 ++ p3)

/-- The same calls seen on a canvas: a context together with the surface variable that is
read back afterwards.  What the context paints lands on the surface it targets. -/
def redrawCanvas (fb_width fb_height : Int) (cv : Cairo × SurfPtr) : Cairo × SurfPtr :=
  match drawScene fb_width fb_height cv.1 with
  | (c1, ps) => (c1, cv.2.paint cv.1.target ps)

/-- Lines 204-233: the body of `if (should_render)`. -/
def redraw (s : State) : State :=
  let s := s.log Op.glClear
  match s.ctx with
  | none => { s with proc := Proc.crashed }
  | some c =>
    match redrawCanvas s.fb_width s.fb_height (c, s.scr_surf) with
    | (c1, surf) =>
      let s := { s with ctx := some c1, scr_surf := surf }
      match cairo_image_surface_get_data s.scr_surf with
      | none => { s with proc := Proc.crashed }
      | some data =>
        let s := s.log (Op.glTexImage2D s.fb_width s.fb_height data)
        let s := s.log (Op.glDrawElements 6)
        let s := s.log Op.glfwSwapBuffers
        let s := { s with should_render := false }
        s.log (Op.stdout Msg.rendered)

/-- Lines 203-234. -/
def renderStep (s : State) : State :=
  if s.should_render then redraw s else s

/-- Lines 75-200: everything `main` does before the loop.  `proc` is `exited 1` when a step
failed and `alive` when the loop is reached. -/
def mainInit (env : Env) : State :=
  let s := State.initial
  if env.glfwInitOk = false then (s.log (Op.stderr Msg.glfwInitFailed)).exit 1 else
  let s := { s with errorCallbackSet := true }
  if env.windowOk = false then
    (glfwTerminate (s.log (Op.stderr Msg.windowFailed))).exit 1 else
  let s := { s with live := s.live ++ [Res.window] }
  let s := { s with framebufferSizeCallbackSet := true }
  let s := (s.log (Op.stdout Msg.rendererInfo)).log (Op.stdout Msg.versionInfo)
  match s.gen Res.shader with
  | (s, v) =>
  let s := { s with scr_vert := v }
  if env.vertOk = false then
    (glfwTerminate (s.log (Op.stderr Msg.vertFailed))).exit 1 else
  match s.gen Res.shader with
  | (s, f) =>
  let s := { s with scr_frag := f }
  if env.fragOk = false then
    (glfwTerminate ((s.log (Op.stderr Msg.fragFailed)).release (Res.shader s.scr_vert))).exit 1
  else
  match s.gen Res.program with
  | (s, p) =>
  let s := { s with scr_prog := p }
  if env.linkOk = false then
    (glfwTerminate (((s.log (Op.stderr Msg.linkFailed)).release
      (Res.shader s.scr_vert)).release (Res.shader s.scr_frag))).exit 1
  else
  let s := s.log (Op.stdout Msg.linked)
  let s := (s.release (Res.shader s.scr_vert)).release (Res.shader s.scr_frag)
  match s.gen Res.buffer with
  | (s, vbo) =>
  let s := { s with scr_vbo := vbo }
  match s.gen Res.buffer with
  | (s, ebo) =>
  let s := { s with scr_ebo := ebo }
  match s.gen Res.vertexArray with
  | (s, vao) =>
  let s := { s with scr_vao := vao }
  match create_cairo WIDTH HEIGHT env.surfOk env.ctxOk s with
  | (s, surf, none) =>
    let s := { s with scr_surf := surf, ctx := none }
    (glfwTerminate (s.log (Op.stderr Msg.cairoFailed))).exit 1
  | (s, surf, some c) =>
    let s := { s with scr_surf := surf, ctx := some c }
    let c := cairo_set_source_rgba c 1 1 1 0
    let c := cairo_rectangle c 0 0 800 600
    match cairo_fill c with
    | (c1, ps) =>
      let s := { s with ctx := some c1, scr_surf := s.scr_surf.paint c.target ps }
      match cairo_image_surface_get_data s.scr_surf with
      | none => { s with proc := Proc.crashed }
      | some data =>
        match s.gen Res.texture with
        | (s, tex) =>
          let s := { s with scr_tex := tex }
          s.log (Op.glTexImage2D WIDTH HEIGHT data)

/-- Lines 239-243. -/
def mainExit (s : State) : State :=
  let s := s.release (Res.vertexArray s.scr_vao)
  let s := s.release (Res.buffer s.scr_vbo)
  let s := s.release (Res.buffer s.scr_ebo)
  let s := glfwTerminate s
  s.exit 0

/-- Lines 201-243.  Each element of `waits` is what one call of `glfwWaitEvents` delivers;
when none is left the process stays blocked in `glfwWaitEvents`. -/
def mainLoop : List (List Event) → State → State
  | [], s =>
    if s.running && !s.windowShouldClose then
      let s := renderStep s
      if s.proc = Proc.crashed then s
      else { s.log Op.glfwWaitEvents with proc := Proc.blocked }
    else mainExit s
  | batch :: rest, s =>
    if s.running && !s.windowShouldClose then
      let s := renderStep s
      if s.proc = Proc.crashed then s
      else mainLoop rest (glfwWaitEvents batch s)
    else mainExit s

/-- Lines 74-244. -/
def main (env : Env) (waits : List (List Event)) : State :=
  let s := mainInit env
  if s.proc = Proc.alive then mainLoop waits s else s

end Designer

namespace Designer

/-! ## Runs, reachable states and observations -/

/-- Every start-up step succeeds. -/
def initOk (env : Env) : Bool :=
  env.glfwInitOk && env.windowOk && env.vertOk && env.fragOk && env.linkOk && env.surfOk
    && env.ctxOk

/-- The environment in which every start-up step succeeds. -/
def okEnv : Env := ⟨true, true, true, true, true, true, true⟩

/-- The canvas creation of a resize event succeeds (other events create no canvas). -/
def Event.canvasOk : Event → Bool
  | Event.resize _ _ surfOk ctxOk => surfOk && ctxOk
  | _ => true

def Event.isResize : Event → Bool
  | Event.resize _ _ _ _ => true
  | _ => false

def Event.isClose : Event → Bool
  | Event.close => true
  | _ => false

/-- The two things the loop does: the render block, and one wait that delivers a batch. -/
inductive Step where
  | render
  | wait (batch : List Event)

def Step.canvasOk : Step → Bool
  | Step.render => true
  | Step.wait batch => batch.all Event.canvasOk

def Step.apply (s : State) : Step → State
  | Step.render => renderStep s
  | Step.wait batch => glfwWaitEvents batch s

/-- The state reached from the start of the loop by a sequence of loop steps. -/
def reach (env : Env) (steps : List Step) : State :=
  steps.foldl Step.apply (mainInit env)

/-- Number of times the render block has been entered (`glClear` is its first call). -/
def redrawsBegun (s : State) : Nat :=
  s.trace.count Op.glClear

/-- Number of times the render block has run to its end (it prints a line there). -/
def redrawsDone (s : State) : Nat :=
  s.trace.count (Op.stdout Msg.rendered)

/-- The three paint operations of one redraw of a `w` by `h` framebuffer through a context
whose translation is `(tx, ty)` and whose path holds `path`. -/
def scenePaints (w h : Int) (tx ty : ℚ) (path : List Shape) : List Paint :=
  [Paint.fill (path ++ [Shape.rect tx ty w h]) ⟨1, 1, 1, 0⟩,
   Paint.stroke [Shape.arc (tx + w / 2) (ty + h / 2) 50 0 2] 9 ⟨1, 1, 1, 1⟩,
   Paint.fill [Shape.arc (tx + w / 2) (ty + h / 2) 50 0 2] ⟨2 / 10, 1, 7 / 10, 1⟩]

/-- The batches delivered before the first one that carries a close request. -/
def beforeClose (waits : List (List Event)) : List (List Event) :=
  waits.takeWhile (fun b => !b.any Event.isClose)

/-- Number of batches of `waits` that carry a resize. -/
def resizeBatches (waits : List (List Event)) : Nat :=
  waits.countP (fun b => b.any Event.isResize)

/-- What has been painted on the surface a pointer refers to. -/
def SurfPtr.painted : SurfPtr → List Paint
  | SurfPtr.live sf => sf.painted
  | _ => []

/-! ## What the paint operations determine about a pixel

cairo composites with the OVER operator and anti-aliases by coverage.  Three facts about one
pixel follow without modelling the rasteriser: a paint whose source is fully transparent, or
whose shape stays clear of the pixel, leaves the pixel as it is; an opaque fill of a single
shape that contains the whole pixel sets the pixel to the source colour; a new image surface
is all zero.  Anything else is left undetermined (`none`). -/

def Paint.source : Paint → Color
  | Paint.fill _ src => src
  | Paint.stroke _ _ src => src

/-- The invariant of the loop while every canvas creation succeeds. -/
structure Inv (s : State) : Prop where
  alive : s.proc = Proc.alive
  running : s.running = true
  fbcb : s.framebufferSizeCallbackSet = true
  keycb : s.keyCallbackSet = false
  canvas : ∃ c sf, s.ctx = some c ∧ s.scr_surf = SurfPtr.live sf ∧ c.target = sf.id ∧
    sf.width = s.fb_width ∧ sf.height = s.fb_height ∧ c.path = [] ∧
    (s.should_render = true → c.tx = 0 ∧ c.ty = 0)
  uploads : ∀ w h d, Op.glTexImage2D w h d ∈ s.trace → d = some (w, h)

/-! ## Lemmas -/

theorem drawScene_eq (w h : Int) (c : Cairo) :
    drawScene w h c =
      ({ c with tx := c.tx + w / 2, ty := c.ty + h / 2, lineWidth := 9,
                source := ⟨2 / 10, 1, 7 / 10, 1⟩, path := [] },
        scenePaints w h c.tx c.ty c.path) := by
  simp [drawScene, scenePaints, cairo_set_source_rgba, cairo_rectangle, cairo_fill,
    cairo_set_line_width, cairo_translate, cairo_arc, cairo_set_source_rgb,
    cairo_stroke_preserve]

theorem redrawCanvas_eq (w h : Int) (c : Cairo) (p : SurfPtr) :
    redrawCanvas w h (c, p) =
      ({ c with tx := c.tx + w / 2, ty := c.ty + h / 2, lineWidth := 9,
                source := ⟨2 / 10, 1, 7 / 10, 1⟩, path := [] },
        p.paint c.target (scenePaints w h c.tx c.ty c.path)) := by
  simp [redrawCanvas, drawScene_eq]

theorem inv_init (env : Env) (h : initOk env = true) : Inv (mainInit env) := by
  obtain ⟨a, b, c, d, e, f, g⟩ := env
  simp only [initOk, Bool.and_eq_true] at h
  obtain ⟨⟨⟨⟨⟨⟨rfl, rfl⟩, rfl⟩, rfl⟩, rfl⟩, rfl⟩, rfl⟩ := h
  refine ⟨rfl, rfl, rfl, rfl, ⟨_, _, rfl, rfl, rfl, rfl, rfl, rfl, fun _ => ⟨rfl, rfl⟩⟩, ?_⟩
  intro w h d hmem
  simp [mainInit, State.initial, State.log, State.gen, State.release, create_cairo,
    cairo_fill, cairo_image_surface_get_data, SurfPtr.paint, SurfPtr.dataDims, Cairo.fresh,
    cairo_rectangle, cairo_set_source_rgba] at hmem
  obtain ⟨rfl, rfl, rfl⟩ := hmem
  rfl

theorem inv_renderStep (s : State) (h : Inv s) : Inv (renderStep s) := by
  obtain ⟨h1, h2, h3, h4, ⟨c, sf, hc, hs, ht, hw, hh, hp, hz⟩, h6⟩ := h
  unfold renderStep
  split
  · rename_i hsr
    simp only [redraw, State.log, hc, hs, redrawCanvas_eq, SurfPtr.paint, ht,
      cairo_image_surface_get_data, SurfPtr.dataDims, if_true]
    refine ⟨h1, h2, h3, h4, ⟨_, _, rfl, rfl, rfl, hw, hh, rfl, ?_⟩, ?_⟩
    · intro hx; simp at hx
    · intro w h d hmem
      simp only [List.mem_append, List.mem_singleton, reduceCtorEq, or_false] at hmem
      rcases hmem with hmem | hmem
      · exact h6 w h d hmem
      · injection hmem with e1 e2 e3
        subst e1 e2 e3
        simp [hw, hh]
  · exact ⟨h1, h2, h3, h4, ⟨c, sf, hc, hs, ht, hw, hh, hp, hz⟩, h6⟩

theorem create_cairo_ok (w h : Int) (s : State) :
    create_cairo w h true true s =
      ({ s with live := s.live ++ [Res.surface s.next] ++ [Res.context (s.next + 1)],
                next := s.next + 1 + 1 },
        SurfPtr.live ⟨s.next, w, h, []⟩, some (Cairo.fresh (s.next + 1) s.next)) := rfl

theorem dispatch_fields (s : State) (e : Event) :
    (dispatch s e).framebufferSizeCallbackSet = s.framebufferSizeCallbackSet ∧
    (dispatch s e).keyCallbackSet = s.keyCallbackSet ∧
    (dispatch s e).proc = s.proc ∧
    redrawsBegun (dispatch s e) = redrawsBegun s ∧
    redrawsDone (dispatch s e) = redrawsDone s ∧
    (dispatch s e).windowShouldClose = (s.windowShouldClose || e.isClose) ∧
    (s.keyCallbackSet = false → (dispatch s e).running = s.running) ∧
    (s.framebufferSizeCallbackSet = true →
      (dispatch s e).should_render = (s.should_render || e.isResize)) := by
  cases e with
  | resize w h so co =>
    by_cases hcb : s.framebufferSizeCallbackSet = true
    · cases so <;> cases co <;>
        simp [dispatch, hcb, framebuffer_size_callback, glViewport, State.log, create_cairo,
          cairo_surface_destroy, cairo_destroy, redrawsBegun, redrawsDone, Event.isClose,
          Event.isResize, List.count_append]
    · simp [dispatch, hcb, Event.isClose]
  | key k sc =>
    by_cases hcb : s.keyCallbackSet = true
    · simp [dispatch, hcb, key_callback, State.log, redrawsBegun, redrawsDone, Event.isClose,
        Event.isResize, List.count_append]
      split <;> simp [hcb]
    · simp [dispatch, hcb, Event.isClose, Event.isResize]
  | close => simp [dispatch, redrawsBegun, redrawsDone, Event.isClose, Event.isResize]
  | error code =>
    by_cases hcb : s.errorCallbackSet = true <;>
      simp [dispatch, hcb, error_callback, State.log, redrawsBegun, redrawsDone,
        Event.isClose, Event.isResize, List.count_append]

theorem inv_dispatch (s : State) (e : Event) (h : Inv s) (he : e.canvasOk = true) :
    Inv (dispatch s e) := by
  obtain ⟨h1, h2, h3, h4, ⟨c, sf, hc, hs, ht, hw, hh, hp, hz⟩, h6⟩ := h
  cases e with
  | resize w h so co =>
    simp only [Event.canvasOk, Bool.and_eq_true] at he
    obtain ⟨rfl, rfl⟩ := he
    simp only [dispatch, h3, if_true, framebuffer_size_callback, glViewport, State.log,
      cairo_surface_destroy, cairo_destroy, hc, hs, create_cairo_ok, Cairo.fresh]
    refine ⟨h1, h2, rfl, h4, ⟨_, _, rfl, rfl, rfl, rfl, rfl, rfl, fun _ => ⟨rfl, rfl⟩⟩, ?_⟩
    intro w1 h1 d hmem
    simp only [List.mem_append, List.mem_singleton, reduceCtorEq, or_false] at hmem
    exact h6 w1 h1 d hmem
  | key k sc =>
    simp only [dispatch, h4]
    exact ⟨h1, h2, h3, h4, ⟨c, sf, hc, hs, ht, hw, hh, hp, hz⟩, h6⟩
  | close =>
    exact ⟨h1, h2, h3, h4, ⟨c, sf, hc, hs, ht, hw, hh, hp, hz⟩, h6⟩
  | error code =>
    simp only [dispatch]
    split
    · refine ⟨h1, h2, h3, h4, ⟨c, sf, hc, hs, ht, hw, hh, hp, hz⟩, ?_⟩
      intro w1 h1 d hmem
      simp only [error_callback, State.log, List.mem_append, List.mem_singleton,
        reduceCtorEq, or_false] at hmem
      exact h6 w1 h1 d hmem
    · exact ⟨h1, h2, h3, h4, ⟨c, sf, hc, hs, ht, hw, hh, hp, hz⟩, h6⟩

theorem inv_foldl (batch : List Event) (s : State) (h : Inv s)
    (hb : batch.all Event.canvasOk = true) : Inv (batch.foldl dispatch s) := by
  induction batch generalizing s with
  | nil => exact h
  | cons e rest ih =>
    simp only [List.all_cons, Bool.and_eq_true] at hb
    exact ih (dispatch s e) (inv_dispatch s e h hb.1) hb.2

theorem inv_log_wait (s : State) (h : Inv s) : Inv (s.log Op.glfwWaitEvents) := by
  obtain ⟨h1, h2, h3, h4, h5, h6⟩ := h
  refine ⟨h1, h2, h3, h4, h5, ?_⟩
  intro w h d hmem
  simp only [State.log, List.mem_append, List.mem_singleton, reduceCtorEq, or_false] at hmem
  exact h6 w h d hmem

theorem inv_wait (batch : List Event) (s : State) (h : Inv s)
    (hb : batch.all Event.canvasOk = true) : Inv (glfwWaitEvents batch s) :=
  inv_foldl batch _ (inv_log_wait s h) hb

theorem foldl_fields (batch : List Event) (s : State) :
    (batch.foldl dispatch s).framebufferSizeCallbackSet = s.framebufferSizeCallbackSet ∧
    (batch.foldl dispatch s).keyCallbackSet = s.keyCallbackSet ∧
    (batch.foldl dispatch s).proc = s.proc ∧
    redrawsBegun (batch.foldl dispatch s) = redrawsBegun s ∧
    redrawsDone (batch.foldl dispatch s) = redrawsDone s ∧
    (batch.foldl dispatch s).windowShouldClose =
      (s.windowShouldClose || batch.any Event.isClose) ∧
    (s.keyCallbackSet = false → (batch.foldl dispatch s).running = s.running) ∧
    (s.framebufferSizeCallbackSet = true →
      (batch.foldl dispatch s).should_render =
        (s.should_render || batch.any Event.isResize)) := by
  induction batch generalizing s with
  | nil => simp
  | cons e rest ih =>
    obtain ⟨a1, a2, a3, a4, a5, a6, a7, a8⟩ := dispatch_fields s e
    obtain ⟨b1, b2, b3, b4, b5, b6, b7, b8⟩ := ih (dispatch s e)
    simp only [List.foldl_cons, List.any_cons]
    refine ⟨b1.trans a1, b2.trans a2, b3.trans a3, b4.trans a4, b5.trans a5, ?_, ?_, ?_⟩
    · rw [b6, a6, Bool.or_assoc]
    · intro hk
      rw [b7 (a2.trans hk), a7 hk]
    · intro hf
      rw [b8 (a1.trans hf), a8 hf, Bool.or_assoc]

theorem wait_fields (batch : List Event) (s : State) :
    (glfwWaitEvents batch s).framebufferSizeCallbackSet = s.framebufferSizeCallbackSet ∧
    (glfwWaitEvents batch s).keyCallbackSet = s.keyCallbackSet ∧
    (glfwWaitEvents batch s).proc = s.proc ∧
    redrawsBegun (glfwWaitEvents batch s) = redrawsBegun s ∧
    redrawsDone (glfwWaitEvents batch s) = redrawsDone s ∧
    (glfwWaitEvents batch s).windowShouldClose =
      (s.windowShouldClose || batch.any Event.isClose) ∧
    (s.keyCallbackSet = false → (glfwWaitEvents batch s).running = s.running) ∧
    (s.framebufferSizeCallbackSet = true →
      (glfwWaitEvents batch s).should_render =
        (s.should_render || batch.any Event.isResize)) := by
  have h := foldl_fields batch (s.log Op.glfwWaitEvents)
  simpa [glfwWaitEvents, State.log, redrawsBegun, redrawsDone, List.count_append] using h

theorem renderStep_fields (s : State) :
    (renderStep s).framebufferSizeCallbackSet = s.framebufferSizeCallbackSet ∧
    (renderStep s).keyCallbackSet = s.keyCallbackSet ∧
    (renderStep s).running = s.running ∧
    (renderStep s).windowShouldClose = s.windowShouldClose ∧
    ((renderStep s).proc = s.proc ∨ (renderStep s).proc = Proc.crashed) ∧
    redrawsBegun (renderStep s) = redrawsBegun s + (if s.should_render then 1 else 0) ∧
    ((renderStep s).proc ≠ Proc.crashed → (renderStep s).should_render = false) ∧
    (s.ctx ≠ none → s.scr_surf ≠ SurfPtr.null →
      (renderStep s).proc = s.proc ∧ (renderStep s).should_render = false ∧
      redrawsDone (renderStep s) = redrawsDone s + (if s.should_render then 1 else 0)) := by
  unfold renderStep
  by_cases hsr : s.should_render = true
  · simp only [hsr, if_true]
    cases hc : s.ctx with
    | none =>
      simp [redraw, State.log, hc, redrawsBegun, List.count_append]
    | some c =>
      cases hs : s.scr_surf with
      | null =>
        simp [redraw, State.log, hc, hs, redrawsBegun, List.count_append, redrawCanvas_eq,
          SurfPtr.paint, cairo_image_surface_get_data]
      | error =>
        simp [redraw, State.log, hc, hs, redrawsBegun, redrawsDone, List.count_append,
          redrawCanvas_eq, SurfPtr.paint, cairo_image_surface_get_data]
      | live sf =>
        by_cases hid : sf.id = c.target <;>
          simp [redraw, State.log, hc, hs, redrawsBegun, redrawsDone, List.count_append,
            redrawCanvas_eq, SurfPtr.paint, cairo_image_surface_get_data, hid]
  · simp only [Bool.not_eq_true] at hsr
    simp [hsr]

theorem mainLoop_nil (s : State) (h : Inv s) :
    mainLoop [] s =
      if s.windowShouldClose = true then mainExit s
      else { (renderStep s).log Op.glfwWaitEvents with proc := Proc.blocked } := by
  have hr := inv_renderStep s h
  cases hwsc : s.windowShouldClose <;> simp [mainLoop, h.running, hr.alive, hwsc]

theorem mainLoop_cons (batch : List Event) (rest : List (List Event)) (s : State)
    (h : Inv s) :
    mainLoop (batch :: rest) s =
      if s.windowShouldClose = true then mainExit s
      else mainLoop rest (glfwWaitEvents batch (renderStep s)) := by
  have hr := inv_renderStep s h
  cases hwsc : s.windowShouldClose <;> simp [mainLoop, h.running, hr.alive, hwsc]

theorem mainExit_fields (s : State) :
    (mainExit s).proc = Proc.exited 0 ∧ (mainExit s).trace = s.trace ++ [Op.glfwTerminate] ∧
    (mainExit s).running = s.running ∧ (mainExit s).keyCallbackSet = s.keyCallbackSet := by
  simp [mainExit, State.exit, glfwTerminate, State.release, State.log]

theorem mainLoop_redraws (waits : List (List Event)) (s : State) (h : Inv s)
    (hw : ∀ b ∈ waits, b.all Event.canvasOk = true) (hc : s.windowShouldClose = false) :
    redrawsBegun (mainLoop waits s) =
      redrawsBegun s + (if s.should_render then 1 else 0) + resizeBatches (beforeClose waits) ∧
    redrawsDone (mainLoop waits s) =
      redrawsDone s + (if s.should_render then 1 else 0) + resizeBatches (beforeClose waits) := by
  induction waits generalizing s with
  | nil =>
    obtain ⟨c, sf, hctx, hsf, -⟩ := h.canvas
    obtain ⟨-, -, -, -, -, r6, -, r8⟩ := renderStep_fields s
    have r8 := r8 (by simp [hctx]) (by simp [hsf])
    rw [mainLoop_nil s h]
    simp only [hc, Bool.false_eq_true, if_false]
    simp only [redrawsBegun, redrawsDone, State.log] at r6 r8 ⊢
    simp [List.count_append, r6, r8.2.2, beforeClose, resizeBatches]
  | cons b rest ih =>
    obtain ⟨c, sf, hctx, hsf, -⟩ := h.canvas
    obtain ⟨r1, -, -, r4, -, r6, -, r8⟩ := renderStep_fields s
    have r8 := r8 (by simp [hctx]) (by simp [hsf])
    obtain ⟨w1, -, -, w4, w5, w6, -, w8⟩ := wait_fields b (renderStep s)
    have w8 := w8 (r1.trans h.fbcb)
    have hinv := inv_wait b _ (inv_renderStep s h) (hw b (List.mem_cons_self _ _))
    rw [mainLoop_cons b rest s h]
    simp only [hc, Bool.false_eq_true, if_false]
    rw [r4, hc, Bool.false_or] at w6
    rw [r8.2.1, Bool.false_or] at w8
    by_cases hcl : b.any Event.isClose = true
    · cases rest with
      | nil =>
        rw [mainLoop_nil _ hinv]
        simp only [w6, hcl, if_true]
        obtain ⟨-, e2, -, -⟩ := mainExit_fields (glfwWaitEvents b (renderStep s))
        simp only [redrawsBegun, redrawsDone] at r6 r8 w4 w5 ⊢
        simp [e2, List.count_append, w4, w5, r6, r8.2.2, beforeClose, resizeBatches, hcl]
      | cons b2 rest2 =>
        rw [mainLoop_cons _ _ _ hinv]
        simp only [w6, hcl, if_true]
        obtain ⟨-, e2, -, -⟩ := mainExit_fields (glfwWaitEvents b (renderStep s))
        simp only [redrawsBegun, redrawsDone] at r6 r8 w4 w5 ⊢
        simp [e2, List.count_append, w4, w5, r6, r8.2.2, beforeClose, resizeBatches, hcl]
    · simp only [Bool.not_eq_true] at hcl
      rw [hcl] at w6
      obtain ⟨i1, i2⟩ := ih _ hinv (fun b1 hb1 => hw b1 (List.mem_cons_of_mem _ hb1)) w6
      rw [i1, i2, w4, w5, r6, r8.2.2, w8]
      simp only [beforeClose, resizeBatches, List.takeWhile_cons, hcl, Bool.not_false,
        if_true, List.countP_cons]
      constructor <;> cases hr : b.any Event.isResize <;> simp <;> omega

theorem mainLoop_proc (waits : List (List Event)) (s : State) :
    (mainLoop waits s).proc = Proc.exited 0 ∨ (mainLoop waits s).proc = Proc.crashed ∨
      (mainLoop waits s).proc = Proc.blocked := by
  induction waits generalizing s with
  | nil =>
    simp only [mainLoop]
    split
    · split
      · right; left; assumption
      · right; right; rfl
    · left; exact (mainExit_fields s).1
  | cons b rest ih =>
    simp only [mainLoop]
    split
    · split
      · right; left; assumption
      · exact ih _
    · left; exact (mainExit_fields s).1

theorem mainLoop_exits (waits : List (List Event)) (s : State) (h : Inv s)
    (hw : ∀ b ∈ waits, b.all Event.canvasOk = true)
    (hc : s.windowShouldClose = true ∨ ∃ b ∈ waits, b.any Event.isClose = true) :
    (mainLoop waits s).proc = Proc.exited 0 := by
  induction waits generalizing s with
  | nil =>
    rcases hc with hc | ⟨b, hb, -⟩
    · rw [mainLoop_nil s h, if_pos hc]
      exact (mainExit_fields s).1
    · cases hb
  | cons b rest ih =>
    rw [mainLoop_cons b rest s h]
    by_cases hwsc : s.windowShouldClose = true
    · rw [if_pos hwsc]
      exact (mainExit_fields s).1
    · rw [if_neg hwsc]
      have hinv := inv_wait b _ (inv_renderStep s h) (hw b (List.mem_cons_self _ _))
      apply ih _ hinv (fun b1 hb1 => hw b1 (List.mem_cons_of_mem _ hb1))
      rcases hc with hc | ⟨b1, hb1, hcl⟩
      · exact absurd hc hwsc
      · rcases List.mem_cons.1 hb1 with rfl | hmem
        · left
          rw [(wait_fields b1 (renderStep s)).2.2.2.2.2.1, hcl, Bool.or_true]
        · right
          exact ⟨b1, hmem, hcl⟩

theorem mainLoop_uploads (waits : List (List Event)) (s : State) (h : Inv s)
    (hw : ∀ b ∈ waits, b.all Event.canvasOk = true) :
    ∀ w h d, Op.glTexImage2D w h d ∈ (mainLoop waits s).trace → d = some (w, h) := by
  induction waits generalizing s with
  | nil =>
    intro w h1 d hmem
    rw [mainLoop_nil s h] at hmem
    split at hmem
    · rw [(mainExit_fields s).2.1] at hmem
      simp only [List.mem_append, List.mem_singleton, reduceCtorEq, or_false] at hmem
      exact h.uploads w h1 d hmem
    · simp only [State.log, List.mem_append, List.mem_singleton, reduceCtorEq,
        or_false] at hmem
      exact (inv_renderStep s h).uploads w h1 d hmem
  | cons b rest ih =>
    intro w h1 d hmem
    rw [mainLoop_cons b rest s h] at hmem
    split at hmem
    · rw [(mainExit_fields s).2.1] at hmem
      simp only [List.mem_append, List.mem_singleton, reduceCtorEq, or_false] at hmem
      exact h.uploads w h1 d hmem
    · have hinv := inv_wait b _ (inv_renderStep s h) (hw b (List.mem_cons_self _ _))
      exact ih _ hinv (fun b1 hb1 => hw b1 (List.mem_cons_of_mem _ hb1)) w h1 d hmem

theorem mainLoop_running (waits : List (List Event)) (s : State)
    (hk : s.keyCallbackSet = false) (hr : s.running = true) :
    (mainLoop waits s).running = true ∧ (mainLoop waits s).keyCallbackSet = false := by
  induction waits generalizing s with
  | nil =>
    obtain ⟨-, r2, r3, -⟩ := renderStep_fields s
    simp only [mainLoop]
    split
    · split
      · exact ⟨r3.trans hr, r2.trans hk⟩
      · exact ⟨r3.trans hr, r2.trans hk⟩
    · exact ⟨(mainExit_fields s).2.2.1.trans hr, (mainExit_fields s).2.2.2.trans hk⟩
  | cons b rest ih =>
    obtain ⟨-, r2, r3, -⟩ := renderStep_fields s
    obtain ⟨-, w2, -, -, -, -, w7, -⟩ := wait_fields b (renderStep s)
    simp only [mainLoop]
    split
    · split
      · exact ⟨r3.trans hr, r2.trans hk⟩
      · exact ih _ (w2.trans (r2.trans hk)) ((w7 (r2.trans hk)).trans (r3.trans hr))
    · exact ⟨(mainExit_fields s).2.2.1.trans hr, (mainExit_fields s).2.2.2.trans hk⟩

theorem mainInit_facts (env : Env) :
    (mainInit env).running = true ∧ (mainInit env).keyCallbackSet = false ∧
    (mainInit env).proc = (if initOk env then Proc.alive else Proc.exited 1) ∧
    (initOk env = false →
      redrawsBegun (mainInit env) = 0 ∧ redrawsDone (mainInit env) = 0 ∧
      Op.glfwWaitEvents ∉ (mainInit env).trace ∧
      ∀ w h d, Op.glTexImage2D w h d ∉ (mainInit env).trace) := by
  obtain ⟨a, b, c, d, e, f, g⟩ := env
  cases a <;> cases b <;> cases c <;> cases d <;> cases e <;> cases f <;> cases g <;>
    refine ⟨rfl, rfl, rfl, ?_⟩ <;>
    simp [initOk, mainInit, State.initial, State.log, State.gen, State.release, State.exit,
      glfwTerminate, create_cairo, cairo_surface_destroy, redrawsBegun, redrawsDone]

theorem inv_steps (steps : List Step) (s : State) (h : Inv s)
    (hs : ∀ st ∈ steps, st.canvasOk = true) : Inv (steps.foldl Step.apply s) := by
  induction steps generalizing s with
  | nil => exact h
  | cons st rest ih =>
    have hst := hs st (List.mem_cons_self _ _)
    refine ih _ ?_ (fun st1 h1 => hs st1 (List.mem_cons_of_mem _ h1))
    cases st with
    | render => exact inv_renderStep s h
    | wait batch => exact inv_wait batch s h hst

theorem inv_reach (env : Env) (steps : List Step) (h : initOk env = true)
    (hs : ∀ st ∈ steps, st.canvasOk = true) : Inv (reach env steps) :=
  inv_steps steps _ (inv_init env h) hs

theorem renderStep_trace_mono (s : State) (op : Op) (h : op ∈ s.trace) :
    op ∈ (renderStep s).trace := by
  unfold renderStep
  split
  · unfold redraw
    simp only [State.log]
    split
    · simp [h]
    · split <;> simp [h]
  · exact h

theorem dispatch_trace_mono (s : State) (e : Event) (op : Op) (h : op ∈ s.trace) :
    op ∈ (dispatch s e).trace := by
  cases e with
  | resize w1 h1 so co =>
    simp only [dispatch]
    split
    · cases so <;> cases co <;>
        simp [framebuffer_size_callback, glViewport, State.log, create_cairo,
          cairo_surface_destroy, cairo_destroy, h]
    · exact h
  | key k sc =>
    simp only [dispatch]
    split
    · simp only [key_callback, State.log]
      split <;> simp [h]
    · exact h
  | close => exact h
  | error code =>
    simp only [dispatch]
    split
    · simp [error_callback, State.log, h]
    · exact h

theorem wait_trace_mono (batch : List Event) (s : State) (op : Op) (h : op ∈ s.trace) :
    op ∈ (glfwWaitEvents batch s).trace := by
  have hf : ∀ (b : List Event) (s1 : State), op ∈ s1.trace →
      op ∈ (b.foldl dispatch s1).trace := by
    intro b
    induction b with
    | nil => intro s1 h1; exact h1
    | cons e r ih => intro s1 h1; exact ih _ (dispatch_trace_mono s1 e op h1)
  exact hf batch _ (by simp [State.log, h])

theorem steps_trace_mono (steps : List Step) (s : State) (op : Op) (h : op ∈ s.trace) :
    op ∈ (steps.foldl Step.apply s).trace := by
  induction steps generalizing s with
  | nil => exact h
  | cons st rest ih =>
    refine ih _ ?_
    cases st with
    | render => exact renderStep_trace_mono s op h
    | wait batch => exact wait_trace_mono batch s op h

theorem mainInit_ok (env : Env) (h : initOk env = true) : mainInit env = mainInit okEnv := by
  obtain ⟨a, b, c, d, e, f, g⟩ := env
  simp only [initOk, Bool.and_eq_true] at h
  obtain ⟨⟨⟨⟨⟨⟨rfl, rfl⟩, rfl⟩, rfl⟩, rfl⟩, rfl⟩, rfl⟩ := h
  rfl

theorem mainInit_okEnv_facts :
    (mainInit okEnv).windowShouldClose = false ∧ (mainInit okEnv).should_render = true ∧
    redrawsBegun (mainInit okEnv) = 0 ∧ redrawsDone (mainInit okEnv) = 0 := by
  refine ⟨rfl, rfl, ?_, ?_⟩ <;>
    simp [mainInit, okEnv, State.initial, State.log, State.gen, State.release, create_cairo,
      cairo_fill, cairo_image_surface_get_data, SurfPtr.paint, SurfPtr.dataDims,
      Cairo.fresh, cairo_rectangle, cairo_set_source_rgba, redrawsBegun, redrawsDone]

theorem main_ok (env : Env) (waits : List (List Event)) (h : initOk env = true) :
    main env waits = mainLoop waits (mainInit env) := by
  have hp := (mainInit_facts env).2.2.1
  rw [h] at hp
  simp [main, hp]

theorem main_failed (env : Env) (waits : List (List Event)) (h : initOk env = false) :
    main env waits = mainInit env := by
  have hp := (mainInit_facts env).2.2.1
  rw [h] at hp
  simp [main, hp]

/-- The dirty flag as long as the canvas is there: the render block is entered exactly when
`should_render` is set, and with a context and a surface to draw on the redraw runs to its end
and clears the flag; after a successful start-up the first iteration redraws once; the
iteration after a wait enters the render block once when a resize was delivered and not at
all otherwise; and a complete run whose canvas creations all succeed redraws once plus once
for every wait that delivered a resize before the close request. -/
theorem dirty_flag_with_live_canvas :
    (∀ s : State,
      redrawsBegun (renderStep s) = redrawsBegun s + (if s.should_render then 1 else 0)) ∧
    (∀ s : State, (renderStep s).proc ≠ Proc.crashed → (renderStep s).should_render = false) ∧
    (∀ s : State, s.ctx ≠ none → s.scr_surf ≠ SurfPtr.null →
      (renderStep s).proc = s.proc ∧ (renderStep s).should_render = false ∧
      redrawsDone (renderStep s) = redrawsDone s + (if s.should_render then 1 else 0)) ∧
    (∀ env : Env, initOk env = true →
      (mainInit env).running = true ∧ (mainInit env).windowShouldClose = false ∧
      (mainInit env).should_render = true ∧
      redrawsBegun (mainInit env) = 0 ∧ redrawsDone (mainInit env) = 0 ∧
      redrawsBegun (renderStep (mainInit env)) = 1 ∧
      redrawsDone (renderStep (mainInit env)) = 1 ∧
      (renderStep (mainInit env)).should_render = false) ∧
    (∀ (s : State) (batch : List Event), s.framebufferSizeCallbackSet = true →
      s.should_render = false →
      (glfwWaitEvents batch s).should_render = batch.any Event.isResize ∧
      redrawsBegun (glfwWaitEvents batch s) = redrawsBegun s ∧
      redrawsBegun (renderStep (glfwWaitEvents batch s)) =
        redrawsBegun s + (if batch.any Event.isResize then 1 else 0)) ∧
    (∀ (env : Env) (waits : List (List Event)), initOk env = true →
      (∀ b ∈ waits, b.all Event.canvasOk = true) →
      redrawsBegun (main env waits) = 1 + resizeBatches (beforeClose waits) ∧
      redrawsDone (main env waits) = 1 + resizeBatches (beforeClose waits)) := by
  refine ⟨fun s => (renderStep_fields s).2.2.2.2.2.1,
    fun s => (renderStep_fields s).2.2.2.2.2.2.1,
    fun s => (renderStep_fields s).2.2.2.2.2.2.2, ?_, ?_, ?_⟩
  · intro env henv
    obtain ⟨f1, f2, f3, f4⟩ := mainInit_okEnv_facts
    have hinv := inv_init env henv
    obtain ⟨c, sf, hc, hs, -⟩ := hinv.canvas
    obtain ⟨-, -, -, -, -, r6, -, r8⟩ := renderStep_fields (mainInit env)
    have r8 := r8 (by simp [hc]) (by simp [hs])
    rw [mainInit_ok env henv] at r6 r8 ⊢
    rw [f2, f3] at r6
    rw [f2, f4] at r8
    exact ⟨hinv.running ▸ (mainInit_ok env henv ▸ rfl), f1, f2, f3, f4, r6, r8.2.2, r8.2.1⟩
  · intro s batch hcb hsr
    obtain ⟨-, -, -, w4, -, -, -, w8⟩ := wait_fields batch s
    have w8 := w8 hcb
    rw [hsr, Bool.false_or] at w8
    refine ⟨w8, w4, ?_⟩
    rw [(renderStep_fields _).2.2.2.2.2.1, w4, w8]
  · intro env waits henv hw
    obtain ⟨f1, f2, f3, f4⟩ := mainInit_okEnv_facts
    have hinv := inv_init env henv
    rw [main_ok env waits henv]
    obtain ⟨m1, m2⟩ := mainLoop_redraws waits _ hinv hw (mainInit_ok env henv ▸ f1)
    rw [m1, m2, mainInit_ok env henv, f2, f3, f4]
    simp

/-! ## The claims -/

/-- Claim C1: for every state, after `framebuffer_size_callback(W, H)` with `W > 0`, `H > 0`
and the canvas creation succeeding, the stored framebuffer dimensions are `(W, H)`, the
current canvas (context and surface) is a newly created one whose surface has dimensions
exactly `(W, H)`, and `should_render` is true. -/
theorem framebuffer_size_callback_recreates_canvas (s : State) (W H : Int)
    (surfOk ctxOk : Bool) (hW : 0 < W) (hH : 0 < H) (hsurf : surfOk = true)
    (hctx : ctxOk = true) :
    (framebuffer_size_callback W H surfOk ctxOk s).fb_width = W ∧
    (framebuffer_size_callback W H surfOk ctxOk s).fb_height = H ∧
    (framebuffer_size_callback W H surfOk ctxOk s).should_render = true ∧
    ∃ c sf, (framebuffer_size_callback W H surfOk ctxOk s).ctx = some c ∧
      (framebuffer_size_callback W H surfOk ctxOk s).scr_surf = SurfPtr.live sf ∧
      c.target = sf.id ∧ sf.width = W ∧ sf.height = H ∧ sf.painted = [] ∧
      c = Cairo.fresh c.id sf.id ∧
      Res.surface sf.id ∈ (framebuffer_size_callback W H surfOk ctxOk s).live ∧
      Res.context c.id ∈ (framebuffer_size_callback W H surfOk ctxOk s).live := by
  subst hsurf hctx
  refine ⟨rfl, rfl, rfl, _, _, rfl, rfl, rfl, rfl, rfl, rfl, rfl, ?_, ?_⟩ <;>
    simp [framebuffer_size_callback, create_cairo_ok, Cairo.fresh]

/-- Witness for C1: a resize of the initial state to 320 x 240. -/
theorem framebuffer_size_callback_recreates_canvas_witness :
    (framebuffer_size_callback 320 240 true true State.initial).fb_width = 320 ∧
    (framebuffer_size_callback 320 240 true true State.initial).fb_height = 240 ∧
    (framebuffer_size_callback 320 240 true true State.initial).should_render = true :=
  have h := framebuffer_size_callback_recreates_canvas State.initial 320 240 true true
    (by decide) (by decide) rfl rfl
  ⟨h.1, h.2.1, h.2.2.1⟩

/-- Claim C9: `create_cairo(width, height, surf)` returns `NULL` if and only if the status of
the surface or of the context is not success; on success the returned context targets the
surface stored in `*surf`, which was created with exactly `(width, height)` and is live; when
the surface succeeds and the context fails, the surface is destroyed and `*surf` is `NULL`, so
that the ledger of live handles is what it was before the call. -/
theorem create_cairo_null_iff_failure (width height : Int) (surfOk ctxOk : Bool) (s : State) :
    ((create_cairo width height surfOk ctxOk s).2.2 = none ↔
      (surfOk = false ∨ ctxOk = false)) ∧
    (∀ c, (create_cairo width height surfOk ctxOk s).2.2 = some c →
      ∃ sf, (create_cairo width height surfOk ctxOk s).2.1 = SurfPtr.live sf ∧
        c.target = sf.id ∧ sf.width = width ∧ sf.height = height ∧
        Res.surface sf.id ∈ (create_cairo width height surfOk ctxOk s).1.live ∧
        Res.context c.id ∈ (create_cairo width height surfOk ctxOk s).1.live) ∧
    (surfOk = true → ctxOk = false →
      (create_cairo width height surfOk ctxOk s).2.1 = SurfPtr.null ∧
      (create_cairo width height surfOk ctxOk s).1.live.Perm s.live ∧
      (Res.surface s.next ∉ s.live →
        (create_cairo width height surfOk ctxOk s).1.live = s.live)) := by
  cases surfOk <;> cases ctxOk
  · simp [create_cairo]
  · simp [create_cairo]
  · refine ⟨by simp [create_cairo], by simp [create_cairo], fun _ _ => ⟨rfl, ?_, ?_⟩⟩
    · simp only [create_cairo, cairo_surface_destroy, State.log]
      have h1 : (s.live ++ [Res.surface s.next]).Perm (Res.surface s.next :: s.live) :=
        List.perm_append_singleton _ _
      have h2 := h1.erase (Res.surface s.next)
      simpa using h2
    · intro hfresh
      simp only [create_cairo, cairo_surface_destroy, State.log]
      simp [List.erase_append_right _ hfresh]
  · refine ⟨by simp [create_cairo], ?_, by simp⟩
    intro c hc
    rw [create_cairo_ok] at hc ⊢
    simp only [Option.some.injEq] at hc
    subst hc
    exact ⟨_, rfl, rfl, rfl, rfl, by simp, by simp [Cairo.fresh]⟩

/-- Witness for C9: from the initial state, a surface that succeeds and a context that fails
leave `*surf` null and no live handle. -/
theorem create_cairo_null_iff_failure_witness :
    (create_cairo 640 480 true false State.initial).2.1 = SurfPtr.null ∧
    (create_cairo 640 480 true false State.initial).1.live = State.initial.live :=
  have h := (create_cairo_null_iff_failure 640 480 true false State.initial).2.2 rfl rfl
  ⟨h.1, h.2.2 (by decide)⟩

/-- Claim C4: in every state reached from a successful start-up by loop steps whose canvas
creations succeed, a redraw that the loop performs (the state has `should_render` set) finds
the context with translation zero and draws the circle with radius 50 and stroke width 9
centred at exactly `(fb_width/2, fb_height/2)`. -/
theorem redraw_circle_centred (env : Env) (steps : List Step) (hinit : initOk env = true)
    (hsteps : ∀ st ∈ steps, st.canvasOk = true)
    (hdirty : (reach env steps).should_render = true) :
    ∃ c sf, (reach env steps).ctx = some c ∧ (reach env steps).scr_surf = SurfPtr.live sf ∧
      c.tx = 0 ∧ c.ty = 0 ∧
      (renderStep (reach env steps)).scr_surf =
        SurfPtr.live { sf with painted := sf.painted ++
          [Paint.fill [Shape.rect 0 0 (reach env steps).fb_width (reach env steps).fb_height]
             ⟨1, 1, 1, 0⟩,
           Paint.stroke [Shape.arc ((reach env steps).fb_width / 2)
             ((reach env steps).fb_height / 2) 50 0 2] 9 ⟨1, 1, 1, 1⟩,
           Paint.fill [Shape.arc ((reach env steps).fb_width / 2)
             ((reach env steps).fb_height / 2) 50 0 2] ⟨2 / 10, 1, 7 / 10, 1⟩] } := by
  obtain ⟨-, -, -, -, ⟨c, sf, hc, hs, ht, -, -, hp, hz⟩, -⟩ := inv_reach env steps hinit hsteps
  obtain ⟨htx, hty⟩ := hz hdirty
  refine ⟨c, sf, hc, hs, htx, hty, ?_⟩
  simp [renderStep, hdirty, redraw, State.log, hc, hs, redrawCanvas_eq, SurfPtr.paint, ht,
    cairo_image_surface_get_data, SurfPtr.dataDims, scenePaints, htx, hty, hp]

/-- Witness for C4: the redraw after a resize to 320 x 240 that follows the first redraw. -/
theorem redraw_circle_centred_witness :
    ∃ c sf,
      (reach okEnv [Step.render, Step.wait [Event.resize 320 240 true true]]).ctx = some c ∧
      (reach okEnv [Step.render, Step.wait [Event.resize 320 240 true true]]).scr_surf =
        SurfPtr.live sf ∧ c.tx = 0 ∧ c.ty = 0 :=
  have h := redraw_circle_centred okEnv
    [Step.render, Step.wait [Event.resize 320 240 true true]] (by decide) (by decide) rfl
  h.elim fun c hc => hc.elim fun sf hsf => ⟨c, sf, hsf.1, hsf.2.1, hsf.2.2.1, hsf.2.2.2.1⟩

/-- Claim C10: in every state reached from a successful start-up by loop steps whose canvas
creations succeed, the current canvas has the dimensions `(fb_width, fb_height)`; and at every
texture upload, the one of the start-up and each one of the loop, in reachable states as in
complete runs of `main`, the declared width and height are those of the canvas buffer whose
pixels are passed, so that the `width*height*4` bytes read are within the buffer. -/
theorem upload_dimensions_match_canvas (env : Env) (steps : List Step)
    (waits : List (List Event)) (hinit : initOk env = true)
    (hsteps : ∀ st ∈ steps, st.canvasOk = true)
    (hwaits : ∀ b ∈ waits, b.all Event.canvasOk = true) :
    (∃ c sf, (reach env steps).ctx = some c ∧ (reach env steps).scr_surf = SurfPtr.live sf ∧
      c.target = sf.id ∧ sf.width = (reach env steps).fb_width ∧
      sf.height = (reach env steps).fb_height) ∧
    Op.glTexImage2D WIDTH HEIGHT (some (WIDTH, HEIGHT)) ∈ (reach env steps).trace ∧
    (∀ w h d, Op.glTexImage2D w h d ∈ (reach env steps).trace → d = some (w, h)) ∧
    (∀ w h d, Op.glTexImage2D w h d ∈ (main env waits).trace → d = some (w, h)) ∧
    (∀ w h bw bh, Op.glTexImage2D w h (some (bw, bh)) ∈ (main env waits).trace →
      w * h * 4 ≤ bw * bh * 4) := by
  have hinv := inv_reach env steps hinit hsteps
  obtain ⟨c, sf, hc, hs, ht, hw, hh, -⟩ := hinv.canvas
  have hmain : ∀ w h d, Op.glTexImage2D w h d ∈ (main env waits).trace → d = some (w, h) := by
    have hp := (mainInit_facts env).2.2.1
    rw [hinit] at hp
    simp only [main, hp, if_true]
    exact mainLoop_uploads waits _ (inv_init env hinit) hwaits
  refine ⟨⟨c, sf, hc, hs, ht, hw, hh⟩, ?_, hinv.uploads, hmain, ?_⟩
  · have h0 : Op.glTexImage2D WIDTH HEIGHT (some (WIDTH, HEIGHT)) ∈ (mainInit env).trace := by
      obtain ⟨a, b, c, d, e, f, g⟩ := env
      simp only [initOk, Bool.and_eq_true] at hinit
      obtain ⟨⟨⟨⟨⟨⟨rfl, rfl⟩, rfl⟩, rfl⟩, rfl⟩, rfl⟩, rfl⟩ := hinit
      simp [mainInit, State.initial, State.log, State.gen, State.release, create_cairo,
        cairo_fill, cairo_image_surface_get_data, SurfPtr.paint, SurfPtr.dataDims,
        Cairo.fresh, cairo_rectangle, cairo_set_source_rgba]
    exact steps_trace_mono steps _ _ h0
  · intro w h bw bh hmem
    have := hmain w h _ hmem
    simp only [Option.some.injEq, Prod.mk.injEq] at this
    rw [this.1, this.2]

/-- Witness for C10: a redraw, a resize to 320 x 240 and the redraw that follows. -/
theorem upload_dimensions_match_canvas_witness :
    (∃ c sf,
      (reach okEnv [Step.render, Step.wait [Event.resize 320 240 true true],
        Step.render]).ctx = some c ∧
      (reach okEnv [Step.render, Step.wait [Event.resize 320 240 true true],
        Step.render]).scr_surf = SurfPtr.live sf ∧
      c.target = sf.id ∧
      sf.width = (reach okEnv [Step.render, Step.wait [Event.resize 320 240 true true],
        Step.render]).fb_width ∧
      sf.height = (reach okEnv [Step.render, Step.wait [Event.resize 320 240 true true],
        Step.render]).fb_height) ∧
    Op.glTexImage2D WIDTH HEIGHT (some (WIDTH, HEIGHT)) ∈
      (reach okEnv [Step.render, Step.wait [Event.resize 320 240 true true],
        Step.render]).trace :=
  have h := upload_dimensions_match_canvas okEnv
    [Step.render, Step.wait [Event.resize 320 240 true true], Step.render]
    [[Event.resize 320 240 true true], [Event.close]]
    (by decide) (by decide) (by decide)
  ⟨h.1, h.2.1⟩

/-- Claim C2, evaluated on the code: after a successful start-up and the first redraw, a wait
delivers a resize to 320 x 240 whose canvas creation fails.  The handler stores the null
context and sets `should_render`, so the next iteration starts with `should_render` true and
the loop condition true and enters the render block, but the redraw never runs to its end: the
process crashes at the first cairo call, `should_render` is still true and no second redraw is
completed.  The claim holds on the same events when the canvas creation succeeds (two
completed redraws, flag cleared).  This is the missing null check of the resize handler. -/
theorem redraw_after_failed_resize_never_completes :
    (glfwWaitEvents [Event.resize 320 240 false true]
      (renderStep (mainInit okEnv))).should_render = true ∧
    (glfwWaitEvents [Event.resize 320 240 false true]
      (renderStep (mainInit okEnv))).running = true ∧
    (glfwWaitEvents [Event.resize 320 240 false true]
      (renderStep (mainInit okEnv))).windowShouldClose = false ∧
    (glfwWaitEvents [Event.resize 320 240 false true]
      (renderStep (mainInit okEnv))).proc = Proc.alive ∧
    redrawsDone (glfwWaitEvents [Event.resize 320 240 false true]
      (renderStep (mainInit okEnv))) = 1 ∧
    (renderStep (glfwWaitEvents [Event.resize 320 240 false true]
      (renderStep (mainInit okEnv)))).proc = Proc.crashed ∧
    (renderStep (glfwWaitEvents [Event.resize 320 240 false true]
      (renderStep (mainInit okEnv)))).should_render = true ∧
    redrawsBegun (renderStep (glfwWaitEvents [Event.resize 320 240 false true]
      (renderStep (mainInit okEnv)))) = 2 ∧
    redrawsDone (renderStep (glfwWaitEvents [Event.resize 320 240 false true]
      (renderStep (mainInit okEnv)))) = 1 ∧
    (main okEnv [[Event.resize 320 240 false true], [Event.close]]).should_render = true ∧
    redrawsDone (main okEnv [[Event.resize 320 240 false true], [Event.close]]) = 1 ∧
    (main okEnv [[Event.resize 320 240 true false], [Event.close]]).should_render = true ∧
    redrawsDone (main okEnv [[Event.resize 320 240 true false], [Event.close]]) = 1 ∧
    (main okEnv [[Event.resize 320 240 true true], [Event.close]]).should_render = false ∧
    redrawsDone (main okEnv [[Event.resize 320 240 true true], [Event.close]]) = 2 := by
  refine ⟨by decide, by decide, by decide, by decide, by decide, by decide, by decide,
    by decide, by decide, by decide, by decide, by decide, by decide, by decide, by decide⟩

/-- Claim C7: the exit code of `main` is 1 exactly when a start-up step fails (GLFW
initialisation, window creation, vertex or fragment shader compilation, program link, start-up
canvas creation); in that case the loop is never entered and nothing is redrawn; when every
start-up step succeeds, the only exit code `main` can end with is 0, and it does end with 0
once a close request is delivered (the canvas creations of the resizes succeeding). -/
theorem exit_code_one_iff_init_fails (env : Env) (waits : List (List Event)) :
    ((main env waits).proc = Proc.exited 1 ↔ initOk env = false) ∧
    (initOk env = false →
      main env waits = mainInit env ∧ redrawsBegun (main env waits) = 0 ∧
      redrawsDone (main env waits) = 0 ∧ Op.glfwWaitEvents ∉ (main env waits).trace) ∧
    (initOk env = true → ∀ code, (main env waits).proc = Proc.exited code → code = 0) ∧
    (initOk env = true → (∀ b ∈ waits, b.all Event.canvasOk = true) →
      (∃ b ∈ waits, b.any Event.isClose = true) → (main env waits).proc = Proc.exited 0) := by
  have hp := (mainInit_facts env).2.2.1
  cases henv : initOk env with
  | false =>
    have hmain := main_failed env waits henv
    obtain ⟨g1, g2, g3, -⟩ := (mainInit_facts env).2.2.2 henv
    rw [henv] at hp
    refine ⟨⟨fun _ => rfl, fun _ => ?_⟩, fun _ => ⟨hmain, ?_, ?_, ?_⟩, ?_, ?_⟩
    · rw [hmain]; simpa using hp
    · rw [hmain]; exact g1
    · rw [hmain]; exact g2
    · rw [hmain]; exact g3
    · intro h; cases h
    · intro h; cases h
  | true =>
    have hmain := main_ok env waits henv
    have hproc := mainLoop_proc waits (mainInit env)
    refine ⟨⟨fun h => ?_, fun h => absurd h (by decide)⟩, fun h => absurd h (by decide),
      fun _ code hcode => ?_, fun _ hw hcl => ?_⟩
    · rw [hmain] at h
      rw [h] at hproc
      simp at hproc
    · rw [hmain] at hcode
      rw [hcode] at hproc
      simpa using hproc
    · rw [hmain]
      exact mainLoop_exits waits _ (inv_init env henv) hw (Or.inr hcl)

/-- Witness for C7: a failing fragment shader ends with exit code 1, nothing redrawn. -/
theorem exit_code_one_iff_init_fails_witness :
    main ⟨true, true, true, false, true, true, true⟩ [[Event.close]] =
      mainInit ⟨true, true, true, false, true, true, true⟩ ∧
    redrawsBegun (main ⟨true, true, true, false, true, true, true⟩ [[Event.close]]) = 0 ∧
    redrawsDone (main ⟨true, true, true, false, true, true, true⟩ [[Event.close]]) = 0 ∧
    Op.glfwWaitEvents ∉ (main ⟨true, true, true, false, true, true, true⟩ [[Event.close]]).trace :=
  (exit_code_one_iff_init_fails ⟨true, true, true, false, true, true, true⟩
    [[Event.close]]).2.1 (by decide)

/-- Claim C5, evaluated on the code: `main` registers the error callback and the
framebuffer-size callback but never `key_callback`.  With a successful start-up, an escape key
event delivered during the first wait leaves `running` true and the process blocked in the
next wait; in no run at all does `running` become false, although `key_callback` itself would
clear it. -/
theorem escape_key_is_not_delivered :
    (main okEnv [[Event.key GLFW_KEY_ESCAPE 9]]).keyCallbackSet = false ∧
    (main okEnv [[Event.key GLFW_KEY_ESCAPE 9]]).running = true ∧
    (main okEnv [[Event.key GLFW_KEY_ESCAPE 9]]).proc = Proc.blocked ∧
    (∀ (env : Env) (waits : List (List Event)),
      (main env waits).running = true ∧ (main env waits).keyCallbackSet = false) ∧
    (∀ s : State, (key_callback GLFW_KEY_ESCAPE 9 s).running = false) := by
  refine ⟨by decide, by decide, by decide, ?_, fun s => by simp [key_callback, State.log]⟩
  intro env waits
  obtain ⟨h1, h2, -⟩ := mainInit_facts env
  simp only [main]
  split
  · exact mainLoop_running waits _ h2 h1
  · exact ⟨h1, h2⟩

/-- Claim C6, evaluated on the code: after a successful start-up and a close request `main`
returns 0 having released the vertex array, the two buffers and the window only; the shader
program, the texture and the cairo surface and context of the current canvas are still live.
The same holds when a resize has recreated the canvas. -/
theorem shutdown_leaves_handles_live :
    (main okEnv [[Event.close]]).proc = Proc.exited 0 ∧
    (main okEnv [[Event.close]]).live =
      [Res.program 3, Res.surface 7, Res.context 8, Res.texture 9] ∧
    (main okEnv [[Event.resize 320 240 true true], [Event.close]]).proc = Proc.exited 0 ∧
    (main okEnv [[Event.resize 320 240 true true], [Event.close]]).live =
      [Res.program 3, Res.texture 9, Res.surface 10, Res.context 11] := by
  refine ⟨by decide, by decide, by decide, by decide⟩

/-- Claim C8, evaluated on the code: a canvas creation that fails at start-up ends the process
with exit code 1, but one that fails inside the resize handler does not.  The handler stores
the null context and sets `should_render`; the next iteration enters the render block and
issues its cairo calls on the null context, where the process crashes.  The exit code is never
1, whether the surface or the context failed. -/
theorem resize_canvas_failure_is_not_fatal :
    (main ⟨true, true, true, true, true, false, true⟩ [[Event.close]]).proc = Proc.exited 1 ∧
    (glfwWaitEvents [Event.resize 320 240 false true]
      (renderStep (mainInit okEnv))).ctx = none ∧
    (glfwWaitEvents [Event.resize 320 240 false true]
      (renderStep (mainInit okEnv))).should_render = true ∧
    (main okEnv [[Event.resize 320 240 false true]]).proc = Proc.crashed ∧
    (main okEnv [[Event.resize 320 240 false true]]).ctx = none ∧
    redrawsBegun (main okEnv [[Event.resize 320 240 false true]]) = 2 ∧
    redrawsDone (main okEnv [[Event.resize 320 240 false true]]) = 1 ∧
    (main okEnv [[Event.resize 320 240 true false]]).proc = Proc.crashed ∧
    (main okEnv [[Event.resize 320 240 false true], [Event.close]]).proc = Proc.crashed := by
  refine ⟨by decide, by decide, by decide, by decide, by decide, by decide, by decide,
    by decide, by decide⟩

end Designer
